import Mathlib

/-!
Verification of the SmartAPI login script (`main.py`): a shallow embedding of
the TOTP-windowed authentication retry protocol — candidate-code generation
(`totp_candidates`), the MPIN strategy (`try_login_mpin`), the password+TOTP
fallback (`try_login_password_totp`) and the orchestrating `main` — together
with theorems settling the specified properties.

The external session-opening capability (`s.generateSession`) is modelled as a
behaviour function from the call index and the three positional arguments to
an outcome: either a returned response dict or a raised exception carrying its
message string.  Sleeps (`time.sleep`, `backoff_sleep`) are recorded as trace
events; durations are whole seconds, as in the script.
-/

namespace SmartLogin

/-- A server response dict, as consumed by the script: a truthy `status` flag,
a `message` string, and an opaque tokens payload. -/
structure Resp where
  status : Bool
  message : String
  tokens : Option String
deriving DecidableEq

/-- Outcome of one call to the session-opening capability: the call either
returns a response dict or raises an exception whose `str(e)` is `msg`. -/
inductive CallOutcome where
  | ret (r : Resp)
  | exn (msg : String)
deriving DecidableEq

/-- Behaviour of the external capability: outcome as a function of the call
index (0-based, over the whole run) and the three positional arguments
(client code, password/mpin, totp code) of `generateSession`. -/
def Beh : Type := Nat → String → String → String → CallOutcome

/-- Observable events of a run: a three-positional-argument `generateSession`
call, a two-positional-argument call (never emitted by this script; present so
the absence of a two-argument fallback is expressible), and a sleep of a given
number of seconds. -/
inductive Event where
  | call3 (clientCode pwd code : String)
  | call2 (clientCode pwd : String)
  | sleep (secs : Nat)
deriving DecidableEq

/-- Credentials loaded from the environment (lines 105-109 of `main.py`). -/
structure Creds where
  apiKey : String
  clientCode : String
  mpin : String
  password : String
  totpSecret : String
deriving DecidableEq

/-- Ambient facts the script reads besides the capability: whether `pyotp`
imported, the TOTP generation oracle `pyotp.TOTP(secret).at(t)` (`none` models
a raised exception), and the current epoch `int(time.time())`. -/
structure Env where
  pyotp : Bool
  gen : String → Int → Option String
  epoch : Int

/-- Lowercasing a string character-wise, modelling Python `str.lower` on the
ASCII messages the script matches against. -/
def lowerString (s : String) : String :=
  String.mk (s.data.map Char.toLower)

/-- `startsWithSeq pat l` is true when `pat` is an initial segment of `l`. -/
def startsWithSeq : List Char → List Char → Bool
  | [], _ => true
  | _ :: _, [] => false
  | p :: ps, c :: cs => p = c && startsWithSeq ps cs

/-- `containsSeq pat l` is true when `pat` occurs contiguously in `l`. -/
def containsSeq (pat : List Char) : List Char → Bool
  | [] => startsWithSeq pat []
  | c :: cs => startsWithSeq pat (c :: cs) || containsSeq pat cs

/-- Python's `pat in s` substring test. -/
def containsSub (s pat : String) : Bool :=
  containsSeq pat.data s.data

/-- Line 180 / line 220: the exception text matches the rate-limit patterns
`"exceeding access rate" in err.lower() or "access denied" in err.lower()`. -/
def isRateLimited (err : String) : Bool :=
  containsSub (lowerString err) "exceeding access rate" ||
    containsSub (lowerString err) "access denied"

/-- Line 210: the response message matches the password-login-forbidden
patterns (on the lowercased message). -/
def isPolicyRejected (msg : String) : Bool :=
  containsSub (lowerString msg) "loginbypassword is not allowed" ||
    containsSub (lowerString msg) "switch to login by mpin"

/-- Lines 132-135, `backoff_sleep(attempt, base, cap)`: the slept duration is
`min(cap, base * (2 ** attempt))`. -/
def backoff_delay (attempt base cap : Nat) : Nat :=
  min cap (base * 2 ^ attempt)

/-- Python `str.zfill` on the digit strings returned by pyotp: left-pad with
`'0'` up to the requested width (no sign handling is needed for digit-only
inputs). -/
def zfill (s : String) (width : Nat) : String :=
  if width ≤ s.length then s
  else String.mk (List.replicate (width - s.length) '0') ++ s

/-- Lines 143-147: the raw per-offset code list, one entry per offset in
`(-30, 0, 30)`; a raised generation exception contributes `None`. -/
def rawCodes (env : Env) (secret : String) : List (Option String) :=
  [(-30 : Int), 0, 30].map fun off =>
    match env.gen secret (env.epoch + off) with
    | some c => some (zfill c 6)
    | none => none

/-- Lines 149-154: keep codes that are truthy and unseen, preserving order
(`if c and c not in seen`). -/
def dedupKeep : List String → List (Option String) → List String
  | _, [] => []
  | seen, none :: rest => dedupKeep seen rest
  | seen, some c :: rest =>
    if c = "" ∨ c ∈ seen then dedupKeep seen rest
    else c :: dedupKeep (c :: seen) rest

/-- Lines 138-155, `totp_candidates(secret)`: empty when pyotp is missing or
the secret is empty, otherwise the deduplicated zero-filled codes for offsets
-30, 0, +30. -/
def totp_candidates (env : Env) (secret : String) : List String :=
  if env.pyotp = false ∨ secret = "" then []
  else dedupKeep [] (rawCodes env secret)

/-- Result of one strategy: the value returned by the Python function
(`resp` or `None`), the updated global call counter, and the emitted trace. -/
structure StratResult where
  resp : Option Resp
  kNext : Nat
  evts : List Event
deriving DecidableEq

/-- Lines 167-185: one pass of the MPIN `for code in candidates` loop at a
given `attempt` number, starting at call index `k`.  A returned response is
returned immediately (line 175); an exception sleeps the rate-limit backoff or
a fixed second and moves to the next candidate. -/
def mpinPass (beh : Beh) (clientCode mpin : String) (attempt : Nat) :
    List String → Nat → StratResult
  | [], k => ⟨none, k, []⟩
  | code :: rest, k =>
    if code = "" then mpinPass beh clientCode mpin attempt rest k
    else
      match beh k clientCode mpin code with
      | .ret r => ⟨some r, k + 1, [.call3 clientCode mpin code]⟩
      | .exn err =>
        let d := if isRateLimited err = true then backoff_delay attempt 2 60 else 1
        let q := mpinPass beh clientCode mpin attempt rest (k + 1)
        ⟨q.resp, q.kNext, .call3 clientCode mpin code :: .sleep d :: q.evts⟩

/-- Lines 165-188: the `while attempt < max_retries` loop, with `fuel` the
remaining iterations (`max_retries - attempt`).  After a pass with no returned
response the attempt counter is incremented and `backoff_sleep(attempt)` runs,
even before the final loop-condition check. -/
def mpinLoop (beh : Beh) (clientCode mpin : String) (cands : List String) :
    Nat → Nat → Nat → StratResult
  | 0, _, k => ⟨none, k, []⟩
  | fuel + 1, attempt, k =>
    let p := mpinPass beh clientCode mpin attempt cands k
    match p.resp with
    | some _ => p
    | none =>
      let q := mpinLoop beh clientCode mpin cands fuel (attempt + 1) p.kNext
      ⟨q.resp, q.kNext, p.evts ++ .sleep (backoff_delay (attempt + 1) 1 20) :: q.evts⟩

/-- Lines 158-188, `try_login_mpin(max_retries)`: skipped (no calls, no
sleeps) when the MPIN or the TOTP secret is absent; otherwise the retry loop
over `totp_candidates(SMARTAPI_TOTP_SECRET)`. -/
def try_login_mpin (env : Env) (beh : Beh) (creds : Creds)
    (maxRetries k : Nat) : StratResult :=
  if creds.mpin = "" then ⟨none, k, []⟩
  else if creds.totpSecret = "" then ⟨none, k, []⟩
  else
    mpinLoop beh creds.clientCode creds.mpin
      (totp_candidates env creds.totpSecret) maxRetries 0 k

/-- Lines 200-225: the password+TOTP `for code in candidates` loop.  A
response whose message matches the policy-rejection patterns, or whose status
is truthy, is returned immediately; other responses sleep one second and move
on; exceptions sleep five seconds when rate-limited, else one. -/
def pwdPass (beh : Beh) (clientCode password : String) :
    List String → Nat → StratResult
  | [], k => ⟨none, k, []⟩
  | code :: rest, k =>
    if code = "" then pwdPass beh clientCode password rest k
    else
      match beh k clientCode password code with
      | .ret r =>
        if isPolicyRejected r.message = true then
          ⟨some r, k + 1, [.call3 clientCode password code]⟩
        else if r.status = true then
          ⟨some r, k + 1, [.call3 clientCode password code]⟩
        else
          let q := pwdPass beh clientCode password rest (k + 1)
          ⟨q.resp, q.kNext, .call3 clientCode password code :: .sleep 1 :: q.evts⟩
      | .exn err =>
        let d := if isRateLimited err = true then 5 else 1
        let q := pwdPass beh clientCode password rest (k + 1)
        ⟨q.resp, q.kNext, .call3 clientCode password code :: .sleep d :: q.evts⟩

/-- Lines 191-225, `try_login_password_totp()`: skipped when the password or
the TOTP secret is absent, or pyotp is missing; otherwise one pass over the
candidates. -/
def try_login_password_totp (env : Env) (beh : Beh) (creds : Creds)
    (k : Nat) : StratResult :=
  if creds.password = "" then ⟨none, k, []⟩
  else if creds.totpSecret = "" then ⟨none, k, []⟩
  else if env.pyotp = false then ⟨none, k, []⟩
  else
    pwdPass beh creds.clientCode creds.password
      (totp_candidates env creds.totpSecret) k

/-- `resp and isinstance(resp, dict) and resp.get("status")` (lines 232, 238). -/
def respTruthy : Option Resp → Bool
  | some r => r.status
  | none => false

/-- Result of a whole run: the process exit code, each strategy's returned
value, the total number of capability calls, and the event trace. -/
structure RunResult where
  exitCode : Nat
  mpinResp : Option Resp
  pwdResp : Option Resp
  calls : Nat
  events : List Event
deriving DecidableEq

/-- Lines 227-243, `main()`: MPIN strategy first (with `max_retries=3`), then
the password+TOTP fallback; exit 0 on a truthy-status response from either,
otherwise `sys.exit(1)`. -/
def mainRun (env : Env) (beh : Beh) (creds : Creds) : RunResult :=
  let m := try_login_mpin env beh creds 3 0
  if respTruthy m.resp = true then ⟨0, m.resp, none, m.kNext, m.evts⟩
  else
    let p := try_login_password_totp env beh creds m.kNext
    if respTruthy p.resp = true then ⟨0, m.resp, p.resp, p.kNext, m.evts ++ p.evts⟩
    else ⟨1, m.resp, p.resp, p.kNext, m.evts ++ p.evts⟩

/-- Lines 116-118 plus `main()`: a missing client code is a fatal
configuration error (`sys.exit(1)` before any capability call); otherwise the
login flow runs. -/
def program (env : Env) (beh : Beh) (creds : Creds) : RunResult :=
  if creds.clientCode = "" then ⟨1, none, none, 0, []⟩
  else mainRun env beh creds

/-- Outcome of one `SmartConnect(...)` constructor call shape. -/
inductive CtorOutcome where
  | ok
  | typeError
  | otherError
deriving DecidableEq

/-- Lines 121-129: instantiation tries the keyword form
`SmartConnect(api_key=...)` first; on `TypeError` it falls back to the
positional form; any other failure (of either call) aborts with exit 1.
Returns `true` exactly when an instance is obtained. -/
def smartConnectInit (kw pos : CtorOutcome) : Bool :=
  match kw with
  | .ok => true
  | .typeError =>
    match pos with
    | .ok => true
    | .typeError => false
    | .otherError => false
  | .otherError => false

/-- The sleep durations of a trace, in order. -/
def sleepsOf : List Event → List Nat
  | [] => []
  | .sleep d :: rest => d :: sleepsOf rest
  | .call3 _ _ _ :: rest => sleepsOf rest
  | .call2 _ _ :: rest => sleepsOf rest

/-- Whether an event is a two-positional-argument capability call. -/
def isCall2Ev : Event → Bool
  | .call2 _ _ => true
  | .call3 _ _ _ => false
  | .sleep _ => false

/-- Whether a trace contains any two-positional-argument capability call. -/
def hasCall2 (evs : List Event) : Bool :=
  evs.any isCall2Ev

/-- Whether a list of durations is strictly increasing. -/
def strictIncreasing : List Nat → Bool
  | [] => true
  | [_] => true
  | a :: b :: rest => Nat.blt a b && strictIncreasing (b :: rest)

/-- Whether a list of durations is non-decreasing. -/
def nonDecreasing : List Nat → Bool
  | [] => true
  | [_] => true
  | a :: b :: rest => Nat.ble a b && nonDecreasing (b :: rest)

/-! ### Concrete fixtures used by witnesses and counterexamples -/

/-- A concrete environment: pyotp available, epoch 100, and a generation
oracle producing three distinct codes for the offsets -30, 0, +30. -/
def envA : Env :=
  ⟨true,
    fun _ t =>
      some (if t = (70 : Int) then "111111"
        else if t = (100 : Int) then "222222" else "333333"),
    100⟩

/-- A full credential bundle (client code, MPIN, password, TOTP secret). -/
def credsA : Creds := ⟨"key", "P1", "1234", "pw", "SEC"⟩

/-- A credential bundle with MPIN and TOTP secret but no password. -/
def credsNoPwd : Creds := ⟨"key", "P1", "1234", "", "SEC"⟩

/-- A capability stub keyed on the candidate code: it returns a success dict
with tokens for the second candidate code `"222222"` and an ordinary failure
dict for every other code. -/
def behCodeKeyed : Beh := fun _ _ _ code =>
  if code = "222222" then CallOutcome.ret ⟨true, "ok", some "tok"⟩
  else CallOutcome.ret ⟨false, "bad", none⟩

/-- A capability stub that answers every call with the returned dict
`{status: false, message: "exceeding access rate"}` (it never raises). -/
def behRateRet : Beh := fun _ _ _ _ =>
  CallOutcome.ret ⟨false, "exceeding access rate", none⟩

/-- A capability stub that raises on every call with a rate-limit message. -/
def behRateExn : Beh := fun _ _ _ _ =>
  CallOutcome.exn "exceeding access rate"

/-- A capability stub that raises on every call with a Python `TypeError`
argument-count-mismatch message. -/
def behArgc : Beh := fun _ _ _ _ =>
  CallOutcome.exn "generateSession() takes 3 positional arguments but 4 were given"

/-- A capability stub whose first call raises a transport error and whose
later calls return a success dict carrying tokens. -/
def behExnThenOk : Beh := fun k _ _ _ =>
  if k = 0 then CallOutcome.exn "connection reset"
  else CallOutcome.ret ⟨true, "ok", some "tok"⟩

/-- An environment whose generation oracle always produces the short digit
string `"7"` (so zero-filling is observable). -/
def envGen7 : Env := ⟨true, fun _ _ => some "7", 0⟩

/-- An environment whose generation oracle always raises. -/
def envNoGen : Env := ⟨true, fun _ _ => none, 0⟩

/-! ### Helper lemmas -/

theorem dedupKeep_mem : ∀ (l : List (Option String)) (seen : List String)
    (c : String), c ∈ dedupKeep seen l → c ∉ seen ∧ c ≠ ""
  | [], _, _, h => by simp [dedupKeep] at h
  | none :: rest, seen, c, h => dedupKeep_mem rest seen c (by simpa [dedupKeep] using h)
  | some a :: rest, seen, c, h => by
    rw [dedupKeep] at h
    split at h
    · exact dedupKeep_mem rest seen c h
    · rename_i hcond
      rcases List.mem_cons.mp h with h1 | h2
      · subst h1
        push_neg at hcond
        exact ⟨hcond.2, hcond.1⟩
      · have := dedupKeep_mem rest (a :: seen) c h2
        exact ⟨fun hs => this.1 (List.mem_cons_of_mem a hs), this.2⟩

theorem dedupKeep_nodup : ∀ (l : List (Option String)) (seen : List String),
    (dedupKeep seen l).Nodup
  | [], _ => by simp [dedupKeep]
  | none :: rest, seen => by simpa [dedupKeep] using dedupKeep_nodup rest seen
  | some a :: rest, seen => by
    rw [dedupKeep]
    split
    · exact dedupKeep_nodup rest seen
    · refine List.nodup_cons.mpr ⟨fun hmem => ?_, dedupKeep_nodup rest (a :: seen)⟩
      exact (dedupKeep_mem rest (a :: seen) a hmem).1 (List.mem_cons_self a seen)

theorem dedupKeep_sublist : ∀ (l : List (Option String)) (seen : List String),
    (dedupKeep seen l).Sublist (l.filterMap id)
  | [], _ => by simp [dedupKeep]
  | none :: rest, seen => by simpa [dedupKeep] using dedupKeep_sublist rest seen
  | some a :: rest, seen => by
    rw [dedupKeep]
    simp only [List.filterMap_cons, id]
    split
    · exact (dedupKeep_sublist rest seen).cons a
    · exact (dedupKeep_sublist rest (a :: seen)).cons₂ a

theorem replicate_zero_digits (n : Nat) :
    (List.replicate n '0').all Char.isDigit = true := by
  rw [List.all_eq_true]
  intro x hx
  rw [List.eq_of_mem_replicate hx]
  rfl

theorem zfill_length (s : String) (n : Nat) : (zfill s n).length = max n s.length := by
  rw [zfill]
  split
  · rename_i h
    exact (Nat.max_eq_right h).symm
  · rename_i h
    rw [String.length_append]
    have h2 : (String.mk (List.replicate (n - s.length) '0')).length = n - s.length := by
      show (List.replicate (n - s.length) '0').length = n - s.length
      exact List.length_replicate _ _
    rw [h2]
    omega

theorem zfill_digits (s : String) (n : Nat)
    (h : s.data.all Char.isDigit = true) : (zfill s n).data.all Char.isDigit = true := by
  rw [zfill]
  split
  · exact h
  · rw [String.data_append, List.all_append]
    show ((List.replicate (n - s.length) '0').all Char.isDigit &&
      s.data.all Char.isDigit) = true
    rw [replicate_zero_digits, h]
    rfl

theorem zfill_ne_empty (s : String) : zfill s 6 ≠ "" := by
  intro hcontra
  have hlen := zfill_length s 6
  rw [hcontra] at hlen
  have h6 : (6 : Nat) ≤ max 6 s.length := Nat.le_max_left 6 s.length
  rw [← hlen] at h6
  have h0 : ("" : String).length = 0 := rfl
  omega

theorem mpinPass_noCall2 (beh : Beh) (a b : String) (attempt : Nat) :
    ∀ (cands : List String) (k : Nat),
      hasCall2 (mpinPass beh a b attempt cands k).evts = false
  | [], k => by simp [mpinPass, hasCall2]
  | code :: rest, k => by
    rw [mpinPass]
    split
    · exact mpinPass_noCall2 beh a b attempt rest k
    · cases hb : beh k a b code with
      | ret r => simp [hasCall2, isCall2Ev]
      | exn err =>
        simp only [hasCall2, List.any_cons, isCall2Ev, Bool.false_or]
        exact mpinPass_noCall2 beh a b attempt rest (k + 1)

theorem mpinLoop_noCall2 (beh : Beh) (a b : String) (cands : List String) :
    ∀ (fuel attempt k : Nat),
      hasCall2 (mpinLoop beh a b cands fuel attempt k).evts = false
  | 0, _, k => by simp [mpinLoop, hasCall2]
  | fuel + 1, attempt, k => by
    rw [mpinLoop]
    cases hp : (mpinPass beh a b attempt cands k).resp with
    | some r =>
      simp only [hp]
      exact mpinPass_noCall2 beh a b attempt cands k
    | none =>
      simp only [hp, hasCall2, List.any_append, List.any_cons, isCall2Ev, Bool.false_or]
      rw [← hasCall2, ← hasCall2, mpinPass_noCall2 beh a b attempt cands k,
        mpinLoop_noCall2 beh a b cands fuel (attempt + 1)
          (mpinPass beh a b attempt cands k).kNext]
      rfl

theorem pwdPass_noCall2 (beh : Beh) (a b : String) :
    ∀ (cands : List String) (k : Nat),
      hasCall2 (pwdPass beh a b cands k).evts = false
  | [], k => by simp [pwdPass, hasCall2]
  | code :: rest, k => by
    rw [pwdPass]
    split
    · exact pwdPass_noCall2 beh a b rest k
    · split
      · split
        · simp [hasCall2, isCall2Ev]
        · split
          · simp [hasCall2, isCall2Ev]
          · simp only [hasCall2, List.any_cons, isCall2Ev, Bool.false_or]
            exact pwdPass_noCall2 beh a b rest (k + 1)
      · simp only [hasCall2, List.any_cons, isCall2Ev, Bool.false_or]
        exact pwdPass_noCall2 beh a b rest (k + 1)

theorem try_login_mpin_noCall2 (env : Env) (beh : Beh) (creds : Creds)
    (maxRetries k : Nat) :
    hasCall2 (try_login_mpin env beh creds maxRetries k).evts = false := by
  rw [try_login_mpin]
  split
  · simp [hasCall2]
  · split
    · simp [hasCall2]
    · exact mpinLoop_noCall2 beh creds.clientCode creds.mpin _ maxRetries 0 k

theorem try_login_password_totp_noCall2 (env : Env) (beh : Beh) (creds : Creds)
    (k : Nat) :
    hasCall2 (try_login_password_totp env beh creds k).evts = false := by
  rw [try_login_password_totp]
  split
  · simp [hasCall2]
  · split
    · simp [hasCall2]
    · split
      · simp [hasCall2]
      · exact pwdPass_noCall2 beh creds.clientCode creds.password _ k

theorem program_noCall2 (env : Env) (beh : Beh) (creds : Creds) :
    hasCall2 (program env beh creds).events = false := by
  have h1 := try_login_mpin_noCall2 env beh creds 3 0
  have h2 := try_login_password_totp_noCall2 env beh creds
    (try_login_mpin env beh creds 3 0).kNext
  rw [hasCall2] at h1 h2
  rw [program]
  split
  · simp [hasCall2]
  · simp only [mainRun]
    split
    · simpa [hasCall2] using h1
    · split
      · simp [hasCall2, List.any_append, h1, h2]
      · simp [hasCall2, List.any_append, h1, h2]

theorem mpinPass_kNext_le (beh : Beh) (a b : String) (attempt : Nat) :
    ∀ (cands : List String) (k : Nat),
      (mpinPass beh a b attempt cands k).kNext ≤ k + cands.length
  | [], k => by simp [mpinPass]
  | code :: rest, k => by
    rw [mpinPass]
    split
    · have := mpinPass_kNext_le beh a b attempt rest k
      simp only [List.length_cons]
      omega
    · cases hb : beh k a b code with
      | ret r =>
        simp only [List.length_cons]
        omega
      | exn err =>
        have := mpinPass_kNext_le beh a b attempt rest (k + 1)
        simp only [List.length_cons]
        omega

theorem mpinLoop_kNext_le (beh : Beh) (a b : String) (cands : List String) :
    ∀ (fuel attempt k : Nat),
      (mpinLoop beh a b cands fuel attempt k).kNext ≤ k + fuel * cands.length
  | 0, _, k => by simp [mpinLoop]
  | fuel + 1, attempt, k => by
    rw [mpinLoop]
    cases hp : (mpinPass beh a b attempt cands k).resp with
    | some r =>
      simp only [hp]
      have := mpinPass_kNext_le beh a b attempt cands k
      have hmul : (fuel + 1) * cands.length = fuel * cands.length + cands.length := by
        ring
      omega
    | none =>
      simp only [hp]
      have h1 := mpinPass_kNext_le beh a b attempt cands k
      have h2 := mpinLoop_kNext_le beh a b cands fuel (attempt + 1)
        (mpinPass beh a b attempt cands k).kNext
      have hmul : (fuel + 1) * cands.length = fuel * cands.length + cands.length := by
        ring
      omega

theorem pwdPass_kNext_le (beh : Beh) (a b : String) :
    ∀ (cands : List String) (k : Nat),
      (pwdPass beh a b cands k).kNext ≤ k + cands.length
  | [], k => by simp [pwdPass]
  | code :: rest, k => by
    rw [pwdPass]
    split
    · have := pwdPass_kNext_le beh a b rest k
      simp only [List.length_cons]
      omega
    · split
      · split
        · simp only [List.length_cons]
          omega
        · split
          · simp only [List.length_cons]
            omega
          · have := pwdPass_kNext_le beh a b rest (k + 1)
            simp only [List.length_cons]
            omega
      · have := pwdPass_kNext_le beh a b rest (k + 1)
        simp only [List.length_cons]
        omega

/-! ### Claims -/

/-- Claim C1, counterexample.  With the candidate list
`["111111", "222222", "333333"]` and a session capability that returns
`{status: true, tokens: ...}` on the second MPIN candidate code `"222222"`
but an ordinary failure dict on any other code, the run is NOT a success:
the MPIN strategy returns the first candidate's failure response after a
single call (line 175 returns any non-raising response), the second
candidate is never queried, and the process exits 1. -/
theorem c1_counterexample :
    totp_candidates envA "SEC" = ["111111", "222222", "333333"] ∧
    behCodeKeyed 1 "P1" "1234" "222222" = CallOutcome.ret ⟨true, "ok", some "tok"⟩ ∧
    (program envA behCodeKeyed credsNoPwd).exitCode = 1 ∧
    (program envA behCodeKeyed credsNoPwd).calls = 1 ∧
    (program envA behCodeKeyed credsNoPwd).mpinResp = some ⟨false, "bad", none⟩ := by
  decide

/-- Claim C1, amended: provided every earlier MPIN candidate's call raises
(rather than returning a failure response), a truthy status flag stops the
run immediately.  If the first candidate's call raises and the second
returns a response with a truthy status flag, the Authenticator stops after
exactly two capability calls (no third candidate), never enters the
password strategy, and reports success (exit 0) carrying that response. -/
theorem c1_success_short_circuit (env : Env) (beh : Beh) (creds : Creds)
    (c1 c2 : String) (rest : List String) (m : String) (r : Resp)
    (hcc : creds.clientCode ≠ "") (hm : creds.mpin ≠ "")
    (hs : creds.totpSecret ≠ "")
    (hcand : totp_candidates env creds.totpSecret = c1 :: c2 :: rest)
    (h1 : c1 ≠ "") (h2 : c2 ≠ "")
    (hb0 : beh 0 creds.clientCode creds.mpin c1 = CallOutcome.exn m)
    (hb1 : beh 1 creds.clientCode creds.mpin c2 = CallOutcome.ret r)
    (hst : r.status = true) :
    (program env beh creds).exitCode = 0 ∧
    (program env beh creds).mpinResp = some r ∧
    (program env beh creds).pwdResp = none ∧
    (program env beh creds).calls = 2 := by
  have hmpin : try_login_mpin env beh creds 3 0 =
      ⟨some r, 2,
        [Event.call3 creds.clientCode creds.mpin c1,
          Event.sleep (if isRateLimited m = true then backoff_delay 0 2 60 else 1),
          Event.call3 creds.clientCode creds.mpin c2]⟩ := by
    rw [try_login_mpin, if_neg hm, if_neg hs, hcand]
    rw [mpinLoop]
    rw [mpinPass, if_neg h1, hb0]
    rw [mpinPass, if_neg h2, hb1]
  rw [program, if_neg hcc]
  simp only [mainRun, hmpin, respTruthy, hst]
  exact ⟨rfl, rfl, rfl, rfl⟩

/-- Witness for the amended claim C1 at a concrete stub: first call raises a
transport error, second call returns a success dict with tokens. -/
theorem c1_success_short_circuit_witness :
    (program envA behExnThenOk credsA).exitCode = 0 ∧
    (program envA behExnThenOk credsA).mpinResp = some ⟨true, "ok", some "tok"⟩ ∧
    (program envA behExnThenOk credsA).pwdResp = none ∧
    (program envA behExnThenOk credsA).calls = 2 :=
  c1_success_short_circuit envA behExnThenOk credsA "111111" "222222" ["333333"]
    "connection reset" ⟨true, "ok", some "tok"⟩ (by decide) (by decide) (by decide)
    (by decide) (by decide) (by decide) rfl rfl rfl

/-- Claim C3: when the first password+TOTP attempt's response message carries
the password-login-not-allowed signal, the strategy returns that response
immediately after a single capability call: no second attempt, no remaining
candidates, no sleeps. -/
theorem c3_policy_reject_stops (env : Env) (beh : Beh) (creds : Creds)
    (k : Nat) (c : String) (rest : List String) (r : Resp)
    (hpw : creds.password ≠ "") (hs : creds.totpSecret ≠ "")
    (hpy : env.pyotp = true)
    (hcand : totp_candidates env creds.totpSecret = c :: rest) (hc : c ≠ "")
    (hb : beh k creds.clientCode creds.password c = CallOutcome.ret r)
    (hrej : isPolicyRejected r.message = true) :
    try_login_password_totp env beh creds k =
      ⟨some r, k + 1, [Event.call3 creds.clientCode creds.password c]⟩ := by
  rw [try_login_password_totp, if_neg hpw, if_neg hs, hpy, if_neg (by decide), hcand]
  simp [pwdPass, hc, hb, hrej]

/-- Witness for claim C3: the concrete server message
`"LoginbyPassword is not allowed, Please switch to Login by MPIN"` on the
first attempt stops the strategy after one call. -/
theorem c3_policy_reject_stops_witness :
    try_login_password_totp envA
      (fun _ _ _ _ => CallOutcome.ret
        ⟨false, "LoginbyPassword is not allowed, Please switch to Login by MPIN", none⟩)
      credsA 0 =
      ⟨some ⟨false, "LoginbyPassword is not allowed, Please switch to Login by MPIN", none⟩,
        1, [Event.call3 "P1" "pw" "111111"]⟩ :=
  c3_policy_reject_stops envA
    (fun _ _ _ _ => CallOutcome.ret
      ⟨false, "LoginbyPassword is not allowed, Please switch to Login by MPIN", none⟩)
    credsA 0 "111111" ["222222", "333333"]
    ⟨false, "LoginbyPassword is not allowed, Please switch to Login by MPIN", none⟩
    (by decide) (by decide) rfl (by decide) (by decide) rfl (by decide)

/-- Claim C7: when the MPIN is absent, or the TOTP secret is absent, the MPIN
strategy is never attempted: it returns `None` with the call counter
unchanged (zero capability calls) and an empty trace. -/
theorem c7_mpin_skipped (env : Env) (beh : Beh) (creds : Creds)
    (maxRetries k : Nat) (h : creds.mpin = "" ∨ creds.totpSecret = "") :
    try_login_mpin env beh creds maxRetries k = ⟨none, k, []⟩ := by
  rcases h with h | h
  · rw [try_login_mpin, if_pos h]
  · rw [try_login_mpin]
    by_cases hm : creds.mpin = ""
    · rw [if_pos hm]
    · rw [if_neg hm, if_pos h]

/-- Witness for claim C7: a bundle with an MPIN but no TOTP secret makes zero
capability calls under the MPIN strategy. -/
theorem c7_mpin_skipped_witness :
    try_login_mpin envA behCodeKeyed ⟨"key", "P1", "1234", "pw", ""⟩ 3 0 =
      ⟨none, 0, []⟩ :=
  c7_mpin_skipped envA behCodeKeyed ⟨"key", "P1", "1234", "pw", ""⟩ 3 0 (Or.inr rfl)

/-- Claim C9 (implicit): whenever the capability call for the first candidate
returns a value (of any status), the MPIN strategy returns exactly that
response after exactly one capability call, with no further candidates, no
retries and no sleeps. -/
theorem c9_first_response_returned (env : Env) (beh : Beh) (creds : Creds)
    (mr k : Nat) (c : String) (rest : List String) (r : Resp)
    (hm : creds.mpin ≠ "") (hs : creds.totpSecret ≠ "")
    (hcand : totp_candidates env creds.totpSecret = c :: rest) (hc : c ≠ "")
    (hb : beh k creds.clientCode creds.mpin c = CallOutcome.ret r) :
    try_login_mpin env beh creds (mr + 1) k =
      ⟨some r, k + 1, [Event.call3 creds.clientCode creds.mpin c]⟩ := by
  rw [try_login_mpin, if_neg hm, if_neg hs, hcand]
  rw [mpinLoop]
  rw [mpinPass, if_neg hc, hb]

/-- Witness for claim C9: an ordinary rejection (status false) on the first
MPIN attempt ends the MPIN strategy after one call. -/
theorem c9_first_response_returned_witness :
    try_login_mpin envA behRateRet credsA 3 0 =
      ⟨some ⟨false, "exceeding access rate", none⟩, 1,
        [Event.call3 "P1" "1234" "111111"]⟩ :=
  c9_first_response_returned envA behRateRet credsA 2 0 "111111"
    ["222222", "333333"] ⟨false, "exceeding access rate", none⟩
    (by decide) (by decide) rfl (by decide) rfl

theorem pwdPass_allExn_resp (beh : Beh) (a b : String)
    (hb : ∀ (k : Nat) (x y z : String),
      beh k x y z = CallOutcome.exn "exceeding access rate") :
    ∀ (cands : List String) (k : Nat), (pwdPass beh a b cands k).resp = none
  | [], k => by simp [pwdPass]
  | code :: rest, k => by
    rw [pwdPass]
    split
    · exact pwdPass_allExn_resp beh a b hb rest k
    · rw [hb]
      exact pwdPass_allExn_resp beh a b hb rest (k + 1)

theorem try_login_password_totp_allExn_resp (env : Env) (beh : Beh)
    (creds : Creds) (k : Nat)
    (hb : ∀ (k0 : Nat) (x y z : String),
      beh k0 x y z = CallOutcome.exn "exceeding access rate") :
    (try_login_password_totp env beh creds k).resp = none := by
  rw [try_login_password_totp]
  split
  · rfl
  · split
    · rfl
    · split
      · rfl
      · exact pwdPass_allExn_resp beh creds.clientCode creds.password hb _ k

/-- Claim C2, counterexample.  Against a capability that ANSWERS every call
with the dict `{status: false, message: "exceeding access rate"}` (returning,
not raising), the Authenticator does not wait strictly increasing delays and
does not run the configured retry count: the MPIN strategy returns the first
response after a single call (line 175), the password strategy then sleeps a
constant one second between its three attempts, and the run makes 4 calls in
total with sleep sequence [1, 1, 1]. -/
theorem c2_counterexample :
    (program envA behRateRet credsA).exitCode = 1 ∧
    (program envA behRateRet credsA).calls = 4 ∧
    sleepsOf (program envA behRateRet credsA).events = [1, 1, 1] ∧
    strictIncreasing (sleepsOf (program envA behRateRet credsA).events) = false := by
  decide

/-- Claim C2, amended: the backoff behaviour the claim describes occurs when
every call RAISES a rate-limit exception.  Then the MPIN strategy makes
3 retry passes over the three candidates (9 calls), its backoff delays are
non-decreasing and capped (doubling per retry pass: three in-pass delays of
`min 60 (2 * 2^attempt)` plus an end-of-pass delay of `min 20 (2^(attempt+1))`,
i.e. 2,2,2,2,4,4,4,4,8,8,8,8 — equal within a pass, strictly increasing
across passes, not strictly increasing call-to-call), and the run terminates
with overall FAILED (exit 1). -/
theorem c2_rate_limit_backoff (env : Env) (beh : Beh) (creds : Creds)
    (c1 c2 c3 : String)
    (hm : creds.mpin ≠ "") (hs : creds.totpSecret ≠ "")
    (hcand : totp_candidates env creds.totpSecret = [c1, c2, c3])
    (h1 : c1 ≠ "") (h2 : c2 ≠ "") (h3 : c3 ≠ "")
    (hb : ∀ (k : Nat) (x y z : String),
      beh k x y z = CallOutcome.exn "exceeding access rate") :
    (try_login_mpin env beh creds 3 0).resp = none ∧
    (try_login_mpin env beh creds 3 0).kNext = 9 ∧
    sleepsOf (try_login_mpin env beh creds 3 0).evts =
      [2, 2, 2, 2, 4, 4, 4, 4, 8, 8, 8, 8] ∧
    nonDecreasing (sleepsOf (try_login_mpin env beh creds 3 0).evts) = true ∧
    (∀ d ∈ sleepsOf (try_login_mpin env beh creds 3 0).evts, d ≤ 60) ∧
    (program env beh creds).exitCode = 1 := by
  have hrl : isRateLimited "exceeding access rate" = true := by decide
  have hresp : (try_login_mpin env beh creds 3 0).resp = none := by
    rw [try_login_mpin, if_neg hm, if_neg hs, hcand]
    simp [mpinLoop, mpinPass, hb, hrl, h1, h2, h3]
  have hk : (try_login_mpin env beh creds 3 0).kNext = 9 := by
    rw [try_login_mpin, if_neg hm, if_neg hs, hcand]
    simp [mpinLoop, mpinPass, hb, hrl, h1, h2, h3]
  have hsleeps : sleepsOf (try_login_mpin env beh creds 3 0).evts =
      [2, 2, 2, 2, 4, 4, 4, 4, 8, 8, 8, 8] := by
    rw [try_login_mpin, if_neg hm, if_neg hs, hcand]
    simp [mpinLoop, mpinPass, hb, hrl, h1, h2, h3, sleepsOf, backoff_delay]
  have hexit : (program env beh creds).exitCode = 1 := by
    rw [program]
    split
    · rfl
    · simp only [mainRun]
      rw [if_neg (by rw [hresp]; simp [respTruthy])]
      rw [if_neg (by
        rw [try_login_password_totp_allExn_resp env beh creds _ hb]
        simp [respTruthy])]
  refine ⟨hresp, hk, hsleeps, ?_, ?_, hexit⟩
  · rw [hsleeps]
    decide
  · rw [hsleeps]
    decide

/-- Witness for the amended claim C2 at a concrete always-raising stub. -/
theorem c2_rate_limit_backoff_witness :
    (try_login_mpin envA behRateExn credsA 3 0).resp = none ∧
    (try_login_mpin envA behRateExn credsA 3 0).kNext = 9 ∧
    sleepsOf (try_login_mpin envA behRateExn credsA 3 0).evts =
      [2, 2, 2, 2, 4, 4, 4, 4, 8, 8, 8, 8] ∧
    nonDecreasing (sleepsOf (try_login_mpin envA behRateExn credsA 3 0).evts) = true ∧
    (∀ d ∈ sleepsOf (try_login_mpin envA behRateExn credsA 3 0).evts, d ≤ 60) ∧
    (program envA behRateExn credsA).exitCode = 1 :=
  c2_rate_limit_backoff envA behRateExn credsA "111111" "222222" "333333"
    (by decide) (by decide) rfl (by decide) (by decide) (by decide)
    (fun _ _ _ _ => rfl)

/-- Claim C4, counterexample.  Against a capability whose three-positional-
argument call always fails with a `TypeError` argument-count-mismatch
message, the Authenticator never falls back to a two-positional-argument
call shape: the run makes 12 three-argument calls (9 MPIN, 3 password) and
its trace contains no two-argument call; the mismatch is not even matched by
the rate-limit patterns (it is treated as an ordinary failure with a fixed
one-second delay). -/
theorem c4_counterexample :
    (program envA behArgc credsA).calls = 12 ∧
    hasCall2 (program envA behArgc credsA).events = false ∧
    isRateLimited "generateSession() takes 3 positional arguments but 4 were given" = false ∧
    (program envA behArgc credsA).exitCode = 1 := by
  decide

/-- Claim C4, amended: the session-opening capability is ALWAYS called with
exactly three positional arguments — for every environment, capability
behaviour and credential bundle the run's trace contains no two-argument
call, so an argument-count mismatch is handled as an ordinary attempt
failure, not by a fallback call shape.  Only the `SmartConnect` constructor
has a fallback: the keyword form is tried first and the positional form is
used exactly when the keyword form fails with a `TypeError`. -/
theorem c4_no_two_arg_fallback :
    (∀ (env : Env) (beh : Beh) (creds : Creds),
      hasCall2 (program env beh creds).events = false) ∧
    smartConnectInit CtorOutcome.ok CtorOutcome.otherError = true ∧
    smartConnectInit CtorOutcome.typeError CtorOutcome.ok = true ∧
    smartConnectInit CtorOutcome.typeError CtorOutcome.typeError = false ∧
    smartConnectInit CtorOutcome.otherError CtorOutcome.ok = false :=
  ⟨program_noCall2, rfl, rfl, rfl, rfl⟩

/-- Claim C5: the exit code is 0 exactly when some attempt's response had a
truthy status flag, and a missing client code is a fatal configuration error
(exit 1 before any capability call). -/
theorem c5_exit_code (env : Env) (beh : Beh) (creds : Creds) :
    (creds.clientCode = "" → program env beh creds = ⟨1, none, none, 0, []⟩) ∧
    ((program env beh creds).exitCode = 0 ↔
      respTruthy (program env beh creds).mpinResp = true ∨
        respTruthy (program env beh creds).pwdResp = true) := by
  constructor
  · intro h
    rw [program, if_pos h]
  · by_cases hcc : creds.clientCode = ""
    · rw [program, if_pos hcc]
      simp [respTruthy]
    · rw [program, if_neg hcc]
      simp only [mainRun]
      by_cases hmt : respTruthy (try_login_mpin env beh creds 3 0).resp = true
      · rw [if_pos hmt]
        simp [hmt]
      · rw [if_neg hmt]
        by_cases hpt : respTruthy (try_login_password_totp env beh creds
            (try_login_mpin env beh creds 3 0).kNext).resp = true
        · rw [if_pos hpt]
          simp [hmt, hpt]
        · rw [if_neg hpt]
          simp [hmt, hpt]

/-- Witness for claim C5: with a missing client code the run exits 1 with no
capability calls. -/
theorem c5_exit_code_witness :
    program envA behRateRet ⟨"key", "", "1234", "pw", "SEC"⟩ =
      ⟨1, none, none, 0, []⟩ :=
  (c5_exit_code envA behRateRet ⟨"key", "", "1234", "pw", "SEC"⟩).1 rfl

/-- Claim C8: for every capability behaviour the login flow terminates with
the total number of capability calls bounded by the candidate list size
times the MPIN strategy's max-retry count (3, as `main` passes) plus one
pass over the candidate list for the password strategy.  (Termination is
structural in this embedding: `program` is a total function.) -/
theorem c8_call_bound (env : Env) (beh : Beh) (creds : Creds) :
    (program env beh creds).calls ≤
      3 * (totp_candidates env creds.totpSecret).length +
        (totp_candidates env creds.totpSecret).length := by
  have hm : (try_login_mpin env beh creds 3 0).kNext ≤
      3 * (totp_candidates env creds.totpSecret).length := by
    rw [try_login_mpin]
    split
    · exact Nat.zero_le _
    · split
      · exact Nat.zero_le _
      · have := mpinLoop_kNext_le beh creds.clientCode creds.mpin
          (totp_candidates env creds.totpSecret) 3 0 0
        omega
  have hp : ∀ k0 : Nat, (try_login_password_totp env beh creds k0).kNext ≤
      k0 + (totp_candidates env creds.totpSecret).length := by
    intro k0
    rw [try_login_password_totp]
    split
    · exact Nat.le_add_right _ _
    · split
      · exact Nat.le_add_right _ _
      · split
        · exact Nat.le_add_right _ _
        · exact pwdPass_kNext_le beh creds.clientCode creds.password _ k0
  rw [program]
  split
  · exact Nat.zero_le _
  · simp only [mainRun]
    split
    · show (try_login_mpin env beh creds 3 0).kNext ≤ _
      omega
    · have hp2 := hp (try_login_mpin env beh creds 3 0).kNext
      split
      · show (try_login_password_totp env beh creds
          (try_login_mpin env beh creds 3 0).kNext).kNext ≤ _
        omega
      · show (try_login_password_totp env beh creds
          (try_login_mpin env beh creds 3 0).kNext).kNext ≤ _
        omega

/-- Claim C6: with pyotp modelled by its contract — every offset generates a
digit-only code of at most 6 characters — for every non-empty secret and
epoch the candidate list is non-empty, duplicate-free and order-preserving
(a sublist of the per-offset generated codes), and every candidate is
exactly 6 digits, zero-padded; an offset failing to generate is skipped by
construction (it contributes `None`, which the filter drops). -/
theorem c6_candidates_wellformed (env : Env) (secret : String)
    (hp : env.pyotp = true) (hs : secret ≠ "")
    (hgen : ∀ t : Int, ∃ c, env.gen secret t = some c ∧
      c.length ≤ 6 ∧ c.data.all Char.isDigit = true) :
    totp_candidates env secret ≠ [] ∧
    (totp_candidates env secret).Nodup ∧
    (totp_candidates env secret).Sublist ((rawCodes env secret).filterMap id) ∧
    (∀ c ∈ totp_candidates env secret,
      c.length = 6 ∧ c.data.all Char.isDigit = true) := by
  have hne : ¬(env.pyotp = false ∨ secret = "") := by
    rw [hp]
    simp [hs]
  have htc : totp_candidates env secret = dedupKeep [] (rawCodes env secret) := by
    rw [totp_candidates, if_neg hne]
  refine ⟨?_, ?_, ?_, ?_⟩
  · rw [htc]
    obtain ⟨c0, hg0, hl0, hd0⟩ := hgen (env.epoch + (-30))
    rw [rawCodes]
    simp only [List.map_cons, List.map_nil, hg0]
    rw [dedupKeep, if_neg (by simp [zfill_ne_empty c0])]
    exact List.cons_ne_nil _ _
  · rw [htc]
    exact dedupKeep_nodup _ _
  · rw [htc]
    exact dedupKeep_sublist _ _
  · intro c hc
    have hsub : c ∈ (rawCodes env secret).filterMap id := by
      rw [htc] at hc
      exact (dedupKeep_sublist (rawCodes env secret) []).subset hc
    rw [List.mem_filterMap] at hsub
    obtain ⟨o, ho, hoc⟩ := hsub
    rw [rawCodes] at ho
    rw [List.mem_map] at ho
    obtain ⟨off, hoffmem, hf⟩ := ho
    obtain ⟨c0, hg0, hl0, hd0⟩ := hgen (env.epoch + off)
    rw [hg0] at hf
    rw [← hf] at hoc
    have hco : c = zfill c0 6 := by
      simpa [id] using hoc.symm
    subst hco
    constructor
    · rw [zfill_length]
      exact Nat.max_eq_left hl0
    · exact zfill_digits c0 6 hd0

/-- Witness for claim C6 at a concrete short-code oracle: every offset yields
`"7"`, so the single deduplicated candidate is the zero-padded `"000007"`. -/
theorem c6_candidates_wellformed_witness :
    totp_candidates envGen7 "SEC" ≠ [] ∧
    (totp_candidates envGen7 "SEC").Nodup ∧
    (totp_candidates envGen7 "SEC").Sublist ((rawCodes envGen7 "SEC").filterMap id) ∧
    (∀ c ∈ totp_candidates envGen7 "SEC",
      c.length = 6 ∧ c.data.all Char.isDigit = true) :=
  c6_candidates_wellformed envGen7 "SEC" rfl (by decide)
    (fun _ => ⟨"7", rfl, by decide, by decide⟩)

/-- Claim C10 (implicit): the candidate generator is total at its interface —
it returns the empty list when pyotp is unavailable, when the secret is
empty, or when every offset fails to generate, and whatever it returns
contains no empty strings (hence no `None`-like entries) and no duplicates.
(Totality itself is structural: `totp_candidates` is a total function.) -/
theorem c10_candidates_safe (env : Env) (secret : String) :
    (env.pyotp = false → totp_candidates env secret = []) ∧
    (secret = "" → totp_candidates env secret = []) ∧
    ((∀ off ∈ [(-30 : Int), 0, 30], env.gen secret (env.epoch + off) = none) →
      totp_candidates env secret = []) ∧
    (∀ c ∈ totp_candidates env secret, c ≠ "") ∧
    (totp_candidates env secret).Nodup := by
  refine ⟨?_, ?_, ?_, ?_, ?_⟩
  · intro h
    rw [totp_candidates, if_pos (Or.inl h)]
  · intro h
    rw [totp_candidates, if_pos (Or.inr h)]
  · intro h
    have h1 := h (-30) (by simp)
    have h2 := h 0 (by simp)
    have h3 := h 30 (by simp)
    rw [totp_candidates]
    split
    · rfl
    · rw [rawCodes]
      simp only [List.map_cons, List.map_nil, h1, h2, h3]
      rfl
  · intro c hc
    rw [totp_candidates] at hc
    split at hc
    · exact absurd hc (List.not_mem_nil c)
    · exact (dedupKeep_mem _ _ c hc).2
  · rw [totp_candidates]
    split
    · exact List.nodup_nil
    · exact dedupKeep_nodup _ _

/-- Witness for claim C10: the generator returns the empty list when pyotp is
missing, when the secret is empty, and when every offset fails. -/
theorem c10_candidates_safe_witness :
    totp_candidates ⟨false, envA.gen, 100⟩ "SEC" = [] ∧
    totp_candidates envA "" = [] ∧
    totp_candidates envNoGen "SEC" = [] :=
  ⟨(c10_candidates_safe ⟨false, envA.gen, 100⟩ "SEC").1 rfl,
    (c10_candidates_safe envA "").2.1 rfl,
    (c10_candidates_safe envNoGen "SEC").2.2.1 (fun _ _ => rfl)⟩

end SmartLogin
